import Mathlib

/-!
Verification of the GPU admission-control and cost-estimation layer of
`fhevm-engine` (files `fhevm-engine-common/src/gpu_memory.rs` and
`fhevm-listener/src/health_check.rs`), as a shallow embedding in Lean 4.

Machine integers (`u64`, `u16`, `i16`) are modelled as `Nat`/`Int` with
explicit reduction modulo `2 ^ 64` (resp. `2 ^ 16`) where the Rust code
performs wrapping arithmetic.  Code paths that panic (failed `assert!`,
`expect`, out-of-bounds slice indexing, a `panic!()` match arm) are modelled
as `Option.none` (or `Except.error`); a normal return of `v` is `some v`.

The tfhe-rs leaf device-cost functions (`get_add_size_on_gpu`, …) belong to
the accelerator runtime, not to this repository; they are abstracted as an
explicit record of uninterpreted cost functions (`GpuEnv`), so that every
theorem about the dispatch `get_op_size_on_gpu` holds for all of them.
Device-resident ciphertexts carry an abstract handle (`Nat`) standing for
the backing encrypted object.
-/

namespace FhevmGpu

/-- Modulus of the unsigned 64-bit integers used for the per-device
reservation counters (`AtomicU64`). -/
def U64_MOD : Nat := 2 ^ 64

/-- Wrapping 64-bit addition: the value stored by
`AtomicU64::fetch_add(x)` applied to a counter holding `c`, and also the
value of the Rust expression `old_pool_size + amount` on `u64`. -/
def fetchAdd (c x : Nat) : Nat := (c + x) % U64_MOD

/-- Wrapping 64-bit subtraction: the value stored by
`AtomicU64::fetch_sub(x)` applied to a counter holding `c`, and also the
wrapping behaviour of the `u64` difference `now - tick` in
`Tick::is_recent`. -/
def fetchSub (c x : Nat) : Nat := (c + (U64_MOD - x % U64_MOD)) % U64_MOD

/-- Program counter for the body of the retry loop in
`reserve_memory_on_gpu` (gpu_memory.rs, lines 66-78).  `atCheck`, `atSub`
and `returned` record the `old_pool_size` value obtained from the
`fetch_add` of the current iteration. -/
inductive ReservePc where
  | atAdd : ReservePc
  | atCheck (oldPoolSize : Nat) : ReservePc
  | atSub (oldPoolSize : Nat) : ReservePc
  | returned (oldPoolSize : Nat) : ReservePc
deriving DecidableEq, Repr

/-- State of one execution of `reserve_memory_on_gpu`: the position in the
loop body together with the device's reservation counter
(`gpu_mem_reservation[idx]`). -/
structure ReserveState where
  pc : ReservePc
  counter : Nat
deriving DecidableEq, Repr

/-- Small-step semantics of the loop body of `reserve_memory_on_gpu` for a
fixed `amount` and a fixed device, whose capability check
`check_valid_cuda_malloc(size, GpuIndex::new(idx))` is abstracted as the
predicate `valid : Nat → Bool`.

One loop iteration is: `fetch_add(amount)` returning `old_pool_size` and
storing the wrapped sum; then the check on `old_pool_size + amount`; on
success the function returns (`returned`), on failure it executes
`fetch_sub(amount)` and loops back to `atAdd` (after a sleep, which has no
effect on the state). -/
inductive ReserveStep (valid : Nat → Bool) (amount : Nat) :
    ReserveState → ReserveState → Prop where
  | fetchAddStep (c : Nat) :
      ReserveStep valid amount ⟨.atAdd, c⟩ ⟨.atCheck c, fetchAdd c amount⟩
  | checkOk (old c : Nat) (h : valid (fetchAdd old amount) = true) :
      ReserveStep valid amount ⟨.atCheck old, c⟩ ⟨.returned old, c⟩
  | checkFail (old c : Nat) (h : valid (fetchAdd old amount) = false) :
      ReserveStep valid amount ⟨.atCheck old, c⟩ ⟨.atSub old, c⟩
  | fetchSubStep (old c : Nat) :
      ReserveStep valid amount ⟨.atSub old, c⟩ ⟨.atAdd, fetchSub c amount⟩

/-- Reachability in zero or more steps of the `reserve_memory_on_gpu` loop. -/
def ReserveReaches (valid : Nat → Bool) (amount : Nat) :
    ReserveState → ReserveState → Prop :=
  Relation.ReflTransGen (ReserveStep valid amount)

/-- Invariant of the `reserve_memory_on_gpu` loop: after the `fetch_add` of
an iteration the counter holds `old + amount` (wrapped); the rollback
branch is entered only after a rejected check; the function returns only
after an accepted check. -/
def ReserveInv (valid : Nat → Bool) (amount : Nat) : ReserveState → Prop :=
  fun s =>
    match s.pc with
    | .atAdd => True
    | .atCheck old => s.counter = fetchAdd old amount
    | .atSub old => s.counter = fetchAdd old amount
        ∧ valid (fetchAdd old amount) = false
    | .returned old => s.counter = fetchAdd old amount
        ∧ valid (fetchAdd old amount) = true

/-- Model of `release_memory_on_gpu(amount, idx)` (gpu_memory.rs, lines
79-83) acting on the device's counter value `c`: the counter is loaded,
`assert!(current_pool_size >= amount)` panics when `c < amount` (modelled
as `Except.error c`, the counter still holding its entry value `c`), and
otherwise `fetch_sub(amount)` stores the wrapped difference, which is
returned as `Except.ok`. -/
def release_memory_on_gpu (amount c : Nat) : Except Nat Nat :=
  if c < amount then .error c else .ok (fetchSub c amount)

/-- Kind of a device-resident ciphertext, i.e. the concrete tfhe-rs type a
`SupportedFheCiphertexts` variant wraps: `FheBool`, `FheUintN` (`uint N`)
or a fixed-length encrypted byte string `FheBytesN` (`bytes N`); `uint 2`
is the type booleans are promoted to (`cast_into::<FheUint2>`). -/
inductive CtKind where
  | bool : CtKind
  | uint (w : Nat) : CtKind
  | bytes (w : Nat) : CtKind
deriving DecidableEq, Repr

/-- Operand variants (`SupportedFheCiphertexts`, from
`fhevm-engine-common/src/types.rs` as used throughout gpu_memory.rs).
Device-resident variants carry an abstract handle standing for the backing
encrypted object; `Scalar` carries its raw plaintext bytes. -/
inductive SupportedFheCiphertexts where
  | FheBool (h : Nat)
  | FheUint4 (h : Nat)
  | FheUint8 (h : Nat)
  | FheUint16 (h : Nat)
  | FheUint32 (h : Nat)
  | FheUint64 (h : Nat)
  | FheUint128 (h : Nat)
  | FheUint160 (h : Nat)
  | FheUint256 (h : Nat)
  | FheBytes64 (h : Nat)
  | FheBytes128 (h : Nat)
  | FheBytes256 (h : Nat)
  | Scalar (raw : List Nat)
deriving DecidableEq, Repr

/-- Modelled from the spec: the `to_be_uN_bit` width-coercion helpers of
`tfhe_ops.rs` (a file of this repository that is not part of the inspected
source) — a scalar's raw bytes read as a big-endian integer and truncated
or zero-extended to `w` bits (spec §4.1). -/
def to_be_bits (w : Nat) (raw : List Nat) : Nat :=
  (raw.foldl (fun acc b => acc * 256 + b % 256) 0) % 2 ^ w

/-- Reinterpretation of a `u16` value as an `i16`: the Rust cast
`to_be_u16_bit(bytes) as i16` used by the `FheCast`/`FheTrivialEncrypt`,
`FheRand` and `FheRandBounded` arms. -/
def u16_as_i16 (t : Nat) : Int :=
  if t % 2 ^ 16 < 2 ^ 15 then ((t % 2 ^ 16 : Nat) : Int)
  else ((t % 2 ^ 16 : Nat) : Int) - 2 ^ 16

/-- Which tfhe-rs `get_…_size_on_gpu` leaf function a binary dispatch arm
calls. -/
inductive SizeFn where
  | add : SizeFn
  | sub : SizeFn
  | mul : SizeFn
  | div : SizeFn
  | rem : SizeFn
  | bitand : SizeFn
  | bitor : SizeFn
  | bitxor : SizeFn
  | shl : SizeFn
  | shr : SizeFn
  | rotl : SizeFn
  | rotr : SizeFn
  | min : SizeFn
  | max : SizeFn
  | eq : SizeFn
  | ne : SizeFn
  | ge : SizeFn
  | gt : SizeFn
  | le : SizeFn
  | lt : SizeFn
deriving DecidableEq, Repr

/-- Right-hand argument passed to a leaf cost function: another ciphertext
(kind and handle), a width-coerced scalar value, or — only for
`FheBitAnd` with a boolean left operand — the Rust `bool`
`to_be_u4_bit(b) > 0`. -/
inductive SizeArg where
  | ct (k : CtKind) (h : Nat) : SizeArg
  | scalar (v : Nat) : SizeArg
  | boolArg (b : Bool) : SizeArg
deriving DecidableEq, Repr

/-- Uninterpreted leaf cost functions of the accelerator runtime (tfhe-rs
with the cuda backend), which this repository only calls:
`binSize fn k h rhs` is `<lhs of kind k, handle h>.get_<fn>_size_on_gpu(rhs)`;
`bitnotSize`/`negSize` are the unary analogues;
`ifThenElseSize flag k h1 h2` is `flag.get_if_then_else_size_on_gpu(a, b)`
for equal-kind branches; `randSize k`/`randBoundedSize k` are
`<k>::get_generate_oblivious_pseudo_random[_bounded]_size_on_gpu()`; and
`trivialEncryptUnitSize t` is
`trivial_encrypt_be_bytes(t, &[1u8]).get_size_on_gpu()`, the device size of
one trivially-encrypted unit of the type tagged `t` (spec §4.2), whose
defining code (`tfhe_ops.rs`) is outside the inspected source. -/
structure GpuEnv where
  binSize : SizeFn → CtKind → Nat → SizeArg → Nat
  bitnotSize : CtKind → Nat → Nat
  negSize : CtKind → Nat → Nat
  ifThenElseSize : Nat → CtKind → Nat → Nat → Nat
  randSize : CtKind → Nat
  randBoundedSize : CtKind → Nat
  trivialEncryptUnitSize : Int → Nat

/-- Model of `get_supported_ct_size_on_gpu(ct_type)` (gpu_memory.rs, lines
56-58): the device size of `trivial_encrypt_be_bytes(ct_type, &[1u8])`. -/
def get_supported_ct_size_on_gpu (env : GpuEnv) (ct_type : Int) : Nat :=
  env.trivialEncryptUnitSize ct_type

/-- View of an operand as a sized unsigned-integer ciphertext: its kind,
its handle, and the bit-width used to coerce a scalar right-hand side
(`to_be_uN_bit`, 4…256 bits). -/
def asUint : SupportedFheCiphertexts → Option (CtKind × Nat × Nat)
  | .FheUint4 h => some (.uint 4, h, 4)
  | .FheUint8 h => some (.uint 8, h, 8)
  | .FheUint16 h => some (.uint 16, h, 16)
  | .FheUint32 h => some (.uint 32, h, 32)
  | .FheUint64 h => some (.uint 64, h, 64)
  | .FheUint128 h => some (.uint 128, h, 128)
  | .FheUint160 h => some (.uint 160, h, 160)
  | .FheUint256 h => some (.uint 256, h, 256)
  | _ => none

/-- View of an operand as an encrypted byte string: its kind, its handle,
and the bit-width used to coerce a scalar right-hand side
(`to_be_u512_bit`/`to_be_u1024_bit`/`to_be_u2048_bit`). -/
def asByteStr : SupportedFheCiphertexts → Option (CtKind × Nat × Nat)
  | .FheBytes64 h => some (.bytes 64, h, 512)
  | .FheBytes128 h => some (.bytes 128, h, 1024)
  | .FheBytes256 h => some (.bytes 256, h, 2048)
  | _ => none

/-- View of an operand as either a sized unsigned integer or an encrypted
byte string (everything except `FheBool` and `Scalar`). -/
def asUintOrBytes (a : SupportedFheCiphertexts) : Option (CtKind × Nat × Nat) :=
  (asUint a).orElse fun _ => asByteStr a

/-- Shared shape of the `FheAdd`/`FheSub`/`FheMul`/`FheDiv`/`FheRem`
dispatch blocks (gpu_memory.rs, lines 94-386): equal-width
unsigned-integer pairs and (unsigned integer, scalar) pairs are costed;
every other operand pair hits the `_ => panic!()` arm. -/
def arith_size_on_gpu (env : GpuEnv) (fn : SizeFn)
    (a b : SupportedFheCiphertexts) : Option Nat :=
  match asUint a with
  | none => none
  | some (k, h, w) =>
    match b with
    | .Scalar s => some (env.binSize fn k h (.scalar (to_be_bits w s)))
    | _ =>
      match asUint b with
      | none => none
      | some (k2, h2, _) =>
        if k = k2 then some (env.binSize fn k h (.ct k2 h2)) else none

/-- Shared shape of the `FheBitAnd`/`FheBitOr`/`FheBitXor` blocks (lines
387-643): equal boolean, unsigned-integer and byte-string pairs, the
(boolean, scalar) pair — for `FheBitAnd` the scalar becomes the `bool`
`to_be_u4_bit(b) > 0` (line 434), for the other two the boolean is
promoted to `FheUint2` (lines 518-520, 604-606) — and
(integer/byte-string, scalar) pairs; every other pair panics. -/
def bitwise_size_on_gpu (env : GpuEnv) (fn : SizeFn)
    (a b : SupportedFheCiphertexts) : Option Nat :=
  match a, b with
  | .FheBool h1, .FheBool h2 => some (env.binSize fn .bool h1 (.ct .bool h2))
  | .FheBool h1, .Scalar s =>
    if fn = .bitand then
      some (env.binSize .bitand .bool h1 (.boolArg (decide (0 < to_be_bits 4 s))))
    else
      some (env.binSize fn (.uint 2) h1 (.scalar (to_be_bits 4 s)))
  | _, _ =>
    match asUintOrBytes a with
    | none => none
    | some (k, h, w) =>
      match b with
      | .Scalar s => some (env.binSize fn k h (.scalar (to_be_bits w s)))
      | _ =>
        match asUintOrBytes b with
        | none => none
        | some (k2, h2, _) =>
          if k = k2 then some (env.binSize fn k h (.ct k2 h2)) else none

/-- Shared shape of the `FheShl`/`FheShr`/`FheRotl`/`FheRotr` blocks
(lines 644-958): equal unsigned-integer and byte-string pairs and their
(ciphertext, scalar) variants; no boolean case; every other pair panics. -/
def shift_size_on_gpu (env : GpuEnv) (fn : SizeFn)
    (a b : SupportedFheCiphertexts) : Option Nat :=
  match asUintOrBytes a with
  | none => none
  | some (k, h, w) =>
    match b with
    | .Scalar s => some (env.binSize fn k h (.scalar (to_be_bits w s)))
    | _ =>
      match asUintOrBytes b with
      | none => none
      | some (k2, h2, _) =>
        if k = k2 then some (env.binSize fn k h (.ct k2 h2)) else none

/-- Shared shape of the `FheMin`/`FheMax` blocks (lines 960-1099): equal
unsigned-integer and byte-string pairs; (unsigned integer, scalar) pairs;
no boolean case and no (byte-string, scalar) case; every other pair
panics. -/
def minmax_size_on_gpu (env : GpuEnv) (fn : SizeFn)
    (a b : SupportedFheCiphertexts) : Option Nat :=
  match b with
  | .Scalar s =>
    match asUint a with
    | some (k, h, w) => some (env.binSize fn k h (.scalar (to_be_bits w s)))
    | none => none
  | _ =>
    match asUintOrBytes a with
    | none => none
    | some (k, h, _) =>
      match asUintOrBytes b with
      | none => none
      | some (k2, h2, _) =>
        if k = k2 then some (env.binSize fn k h (.ct k2 h2)) else none

/-- Shared shape of the `FheEq`/`FheNe` blocks (lines 1100-1271): equal
boolean, unsigned-integer and byte-string pairs; (boolean, scalar) with
the boolean promoted to `FheUint2` (lines 1146-1149, 1232-1235);
(integer/byte-string, scalar) pairs; every other pair panics. -/
def cmp_eq_size_on_gpu (env : GpuEnv) (fn : SizeFn)
    (a b : SupportedFheCiphertexts) : Option Nat :=
  match a, b with
  | .FheBool h1, .FheBool h2 => some (env.binSize fn .bool h1 (.ct .bool h2))
  | .FheBool h1, .Scalar s =>
    some (env.binSize fn (.uint 2) h1 (.scalar (to_be_bits 4 s)))
  | _, _ =>
    match asUintOrBytes a with
    | none => none
    | some (k, h, w) =>
      match b with
      | .Scalar s => some (env.binSize fn k h (.scalar (to_be_bits w s)))
      | _ =>
        match asUintOrBytes b with
        | none => none
        | some (k2, h2, _) =>
          if k = k2 then some (env.binSize fn k h (.ct k2 h2)) else none

/-- Shared shape of the `FheGe`/`FheGt`/`FheLe`/`FheLt` blocks (lines
1272-1567): equal unsigned-integer and byte-string pairs; (boolean,
scalar) with the boolean promoted to `FheUint2` (e.g. lines 1315-1318);
(unsigned integer, scalar) pairs; there is no (boolean, boolean) case and
no (byte-string, scalar) case; every other pair panics. -/
def cmp_ord_size_on_gpu (env : GpuEnv) (fn : SizeFn)
    (a b : SupportedFheCiphertexts) : Option Nat :=
  match a, b with
  | .FheBool h1, .Scalar s =>
    some (env.binSize fn (.uint 2) h1 (.scalar (to_be_bits 4 s)))
  | _, _ =>
    match b with
    | .Scalar s =>
      match asUint a with
      | some (k, h, w) => some (env.binSize fn k h (.scalar (to_be_bits w s)))
      | none => none
    | _ =>
      match asUintOrBytes a with
      | none => none
      | some (k, h, _) =>
        match asUintOrBytes b with
        | none => none
        | some (k2, h2, _) =>
          if k = k2 then some (env.binSize fn k h (.ct k2 h2)) else none

/-- Shape of the `FheNot` block (lines 1568-1586): every device-resident
variant supports bitwise negation; a scalar operand panics. -/
def bitnot_size_on_gpu (env : GpuEnv)
    (a : SupportedFheCiphertexts) : Option Nat :=
  match a with
  | .FheBool h => some (env.bitnotSize .bool h)
  | .Scalar _ => none
  | _ => (asUintOrBytes a).map fun x => env.bitnotSize x.1 x.2.1

/-- Shape of the `FheNeg` block (lines 1587-1601): only the sized
unsigned-integer variants support negation; boolean, byte-string and
scalar operands panic. -/
def neg_size_on_gpu (env : GpuEnv)
    (a : SupportedFheCiphertexts) : Option Nat :=
  (asUint a).map fun x => env.negSize x.1 x.2.1

/-- Branch costing of the `FheIfThenElse` block (lines 1609-1655) once the
selector is known to be boolean with handle `flag`: equal boolean branches
are promoted to `FheUint2` (lines 1610-1614); otherwise the branches must
be equal-kind unsigned-integer or byte-string ciphertexts; every other
branch pair panics. -/
def if_then_else_size_on_gpu (env : GpuEnv) (flag : Nat)
    (a b : SupportedFheCiphertexts) : Option Nat :=
  match a, b with
  | .FheBool h1, .FheBool h2 => some (env.ifThenElseSize flag (.uint 2) h1 h2)
  | _, _ =>
    match asUintOrBytes a with
    | none => none
    | some (k, h, _) =>
      match asUintOrBytes b with
      | none => none
      | some (k2, h2, _) =>
        if k = k2 then some (env.ifThenElseSize flag k h h2) else none

/-- Destination kind selected by the type tag in the `FheRand` and
`FheRandBounded` cost tables (lines 1670-1683 and 1691-1704): tags `0..=11`
select the twelve supported output widths `FheUint2` … `FheUint2048`; any
other tag hits the `_ => panic!()` arm. -/
def randWidthKind (toType : Int) : Option CtKind :=
  if toType = 0 then some (.uint 2)
  else if toType = 1 then some (.uint 4)
  else if toType = 2 then some (.uint 8)
  else if toType = 3 then some (.uint 16)
  else if toType = 4 then some (.uint 32)
  else if toType = 5 then some (.uint 64)
  else if toType = 6 then some (.uint 128)
  else if toType = 7 then some (.uint 160)
  else if toType = 8 then some (.uint 256)
  else if toType = 9 then some (.uint 512)
  else if toType = 10 then some (.uint 1024)
  else if toType = 11 then some (.uint 2048)
  else none

/-- The twelve supported oblivious-random output widths, in tag order
(spec §4.2). -/
def supportedRandWidths : List Nat :=
  [2, 4, 8, 16, 32, 64, 128, 160, 256, 512, 1024, 2048]

/-- Operation codes (`SupportedFheOperations`, defined in
`fhevm-engine-common/src/types.rs`).  Modelled from the spec: the defining
file is not part of the inspected source; spec §3 fixes the set of
operation codes, and `FheOther` stands for every remaining variant of the
enumeration — the ones that reach the trailing catch-all `_ => panic!()`
of the cost dispatch (gpu_memory.rs, line 1707). -/
inductive SupportedFheOperations where
  | FheAdd : SupportedFheOperations
  | FheSub : SupportedFheOperations
  | FheMul : SupportedFheOperations
  | FheDiv : SupportedFheOperations
  | FheRem : SupportedFheOperations
  | FheNeg : SupportedFheOperations
  | FheBitAnd : SupportedFheOperations
  | FheBitOr : SupportedFheOperations
  | FheBitXor : SupportedFheOperations
  | FheNot : SupportedFheOperations
  | FheShl : SupportedFheOperations
  | FheShr : SupportedFheOperations
  | FheRotl : SupportedFheOperations
  | FheRotr : SupportedFheOperations
  | FheEq : SupportedFheOperations
  | FheNe : SupportedFheOperations
  | FheLt : SupportedFheOperations
  | FheLe : SupportedFheOperations
  | FheGt : SupportedFheOperations
  | FheGe : SupportedFheOperations
  | FheMin : SupportedFheOperations
  | FheMax : SupportedFheOperations
  | FheIfThenElse : SupportedFheOperations
  | FheCast : SupportedFheOperations
  | FheTrivialEncrypt : SupportedFheOperations
  | FheRand : SupportedFheOperations
  | FheRandBounded : SupportedFheOperations
  | FheOther : SupportedFheOperations
deriving DecidableEq, Repr

/-- Modelled from the spec: the fallible `i16 → SupportedFheOperations`
conversion of gpu_memory.rs lines 91-92
(`fhe_operation_int.try_into().expect("Invalid operation")`).  The numeric
discriminants live in `types.rs`, outside the inspected source, so codes
are assigned in the listing order of spec §3, with `27` standing for the
enumeration variants outside the cost dispatch; every other integer fails
to convert. -/
def opFromInt (n : Int) : Option SupportedFheOperations :=
  if n < 0 then none
  else
    match n.toNat with
    | 0 => some .FheAdd
    | 1 => some .FheSub
    | 2 => some .FheMul
    | 3 => some .FheDiv
    | 4 => some .FheRem
    | 5 => some .FheNeg
    | 6 => some .FheBitAnd
    | 7 => some .FheBitOr
    | 8 => some .FheBitXor
    | 9 => some .FheNot
    | 10 => some .FheShl
    | 11 => some .FheShr
    | 12 => some .FheRotl
    | 13 => some .FheRotr
    | 14 => some .FheEq
    | 15 => some .FheNe
    | 16 => some .FheLt
    | 17 => some .FheLe
    | 18 => some .FheGt
    | 19 => some .FheGe
    | 20 => some .FheMin
    | 21 => some .FheMax
    | 22 => some .FheIfThenElse
    | 23 => some .FheCast
    | 24 => some .FheTrivialEncrypt
    | 25 => some .FheRand
    | 26 => some .FheRandBounded
    | 27 => some .FheOther
    | _ => none

/-- Arity enforced by the leading `assert_eq!(input_operands.len(), n)` of
a dispatch arm.  The `FheTrivialEncrypt`/`FheCast` arm (lines 1657-1664)
and the `FheRand`/`FheRandBounded` arms (lines 1665-1706) carry no such
assertion: they index the operand slice directly. -/
def opArityAssert : SupportedFheOperations → Option Nat
  | .FheNot => some 1
  | .FheNeg => some 1
  | .FheIfThenElse => some 3
  | .FheCast => none
  | .FheTrivialEncrypt => none
  | .FheRand => none
  | .FheRandBounded => none
  | .FheOther => none
  | _ => some 2

/-- Model of `get_op_size_on_gpu(fhe_operation_int, input_operands)`
(gpu_memory.rs, lines 86-1709).  The `i16` operation code is converted
first (`expect` panics on failure); each arm then checks its arity where
the source asserts it, and dispatches on the operand shapes.  Slice
indexing past the end of `input_operands` (possible in the
`FheTrivialEncrypt`/`FheCast`, `FheRand` and `FheRandBounded` arms, which
have no arity assertion) panics, hence `none` when the needed index is
absent — while extra trailing operands are simply ignored there. -/
def get_op_size_on_gpu (env : GpuEnv) (fheOperationInt : Int)
    (inputOperands : List SupportedFheCiphertexts) : Option Nat :=
  match opFromInt fheOperationInt with
  | none => none
  | some op =>
    match op with
    | .FheAdd =>
      match inputOperands with
      | [a, b] => arith_size_on_gpu env .add a b
      | _ => none
    | .FheSub =>
      match inputOperands with
      | [a, b] => arith_size_on_gpu env .sub a b
      | _ => none
    | .FheMul =>
      match inputOperands with
      | [a, b] => arith_size_on_gpu env .mul a b
      | _ => none
    | .FheDiv =>
      match inputOperands with
      | [a, b] => arith_size_on_gpu env .div a b
      | _ => none
    | .FheRem =>
      match inputOperands with
      | [a, b] => arith_size_on_gpu env .rem a b
      | _ => none
    | .FheBitAnd =>
      match inputOperands with
      | [a, b] => bitwise_size_on_gpu env .bitand a b
      | _ => none
    | .FheBitOr =>
      match inputOperands with
      | [a, b] => bitwise_size_on_gpu env .bitor a b
      | _ => none
    | .FheBitXor =>
      match inputOperands with
      | [a, b] => bitwise_size_on_gpu env .bitxor a b
      | _ => none
    | .FheShl =>
      match inputOperands with
      | [a, b] => shift_size_on_gpu env .shl a b
      | _ => none
    | .FheShr =>
      match inputOperands with
      | [a, b] => shift_size_on_gpu env .shr a b
      | _ => none
    | .FheRotl =>
      match inputOperands with
      | [a, b] => shift_size_on_gpu env .rotl a b
      | _ => none
    | .FheRotr =>
      match inputOperands with
      | [a, b] => shift_size_on_gpu env .rotr a b
      | _ => none
    | .FheMin =>
      match inputOperands with
      | [a, b] => minmax_size_on_gpu env .min a b
      | _ => none
    | .FheMax =>
      match inputOperands with
      | [a, b] => minmax_size_on_gpu env .max a b
      | _ => none
    | .FheEq =>
      match inputOperands with
      | [a, b] => cmp_eq_size_on_gpu env .eq a b
      | _ => none
    | .FheNe =>
      match inputOperands with
      | [a, b] => cmp_eq_size_on_gpu env .ne a b
      | _ => none
    | .FheGe =>
      match inputOperands with
      | [a, b] => cmp_ord_size_on_gpu env .ge a b
      | _ => none
    | .FheGt =>
      match inputOperands with
      | [a, b] => cmp_ord_size_on_gpu env .gt a b
      | _ => none
    | .FheLe =>
      match inputOperands with
      | [a, b] => cmp_ord_size_on_gpu env .le a b
      | _ => none
    | .FheLt =>
      match inputOperands with
      | [a, b] => cmp_ord_size_on_gpu env .lt a b
      | _ => none
    | .FheNot =>
      match inputOperands with
      | [a] => bitnot_size_on_gpu env a
      | _ => none
    | .FheNeg =>
      match inputOperands with
      | [a] => neg_size_on_gpu env a
      | _ => none
    | .FheIfThenElse =>
      match inputOperands with
      | [c, a, b] =>
        match c with
        | .FheBool flag => if_then_else_size_on_gpu env flag a b
        | _ => some 0
      | _ => none
    | .FheTrivialEncrypt | .FheCast =>
      match inputOperands with
      | _ :: b :: _ =>
        match b with
        | .Scalar s =>
          some (env.trivialEncryptUnitSize (u16_as_i16 (to_be_bits 16 s)))
        | _ => none
      | _ => none
    | .FheRand =>
      match inputOperands.get? 1 with
      | some (.Scalar s) =>
        (randWidthKind (u16_as_i16 (to_be_bits 16 s))).map env.randSize
      | some _ => some 0
      | none => none
    | .FheRandBounded =>
      match inputOperands.get? 2 with
      | some (.Scalar s) =>
        (randWidthKind (u16_as_i16 (to_be_bits 16 s))).map env.randBoundedSize
      | some _ => some 0
      | none => none
    | .FheOther => none

/-- Concrete instantiation of the device-cost collaborator, used to
evaluate the dispatch on closed inputs: every leaf cost is zero. -/
def defaultEnv : GpuEnv where
  binSize := fun _ _ _ _ => 0
  bitnotSize := fun _ _ => 0
  negSize := fun _ _ => 0
  ifThenElseSize := fun _ _ _ _ => 0
  randSize := fun _ => 0
  randBoundedSize := fun _ => 0
  trivialEncryptUnitSize := fun _ => 0

/-- Selector test of the `FheIfThenElse` arm (lines 1605-1607): is operand
0 the boolean variant? -/
def isFheBool : SupportedFheCiphertexts → Bool
  | .FheBool _ => true
  | _ => false

/-- Scalar test used by the `let … else return 0` short-circuits of the
`FheRand`/`FheRandBounded` arms (lines 1666-1668, 1687-1689). -/
def isScalar : SupportedFheCiphertexts → Bool
  | .Scalar _ => true
  | _ => false

/-- Branch-shape condition of the `FheIfThenElse` arm: both branches are
device-resident ciphertexts of the same variant (boolean branches allowed,
being promoted to `FheUint2`). -/
def sameBranchKind (a b : SupportedFheCiphertexts) : Bool :=
  match a, b with
  | .FheBool _, .FheBool _ => true
  | _, _ =>
    match asUintOrBytes a, asUintOrBytes b with
    | some (k, _, _), some (k2, _, _) => k = k2
    | _, _ => false

/-- Liveness freshness window in seconds (health_check.rs, line 11). -/
def IS_ALIVE_TICK_FRESHNESS : Nat := 20

/-- Dependency-trust freshness window in seconds (health_check.rs,
line 12). -/
def CONNECTED_TICK_FRESHNESS : Nat := 5

/-- Model of `Tick::is_recent(seconds)` (health_check.rs, lines 42-49).
`now` is the current time in whole seconds since the Unix epoch when the
system clock is at or after the epoch, `none` when
`duration_since(UNIX_EPOCH)` fails (a pre-epoch clock), in which case the
function returns `false`.  The stored tick is compared through the `u64`
difference `now.as_secs() - *tick`, modelled as wrapping subtraction. -/
def tick_is_recent (now : Option Nat) (tick seconds : Nat) : Bool :=
  match now with
  | none => false
  | some n => fetchSub n tick < seconds

/-- State of the `HealthCheck` service (health_check.rs, lines 16-22):
the three tick timestamps (seconds since epoch) and whether the blockchain
provider is currently present (`None` while it is being replaced).  The
database pool handle carries no state relevant to the checks. -/
structure HealthCheck where
  blockchain_timeout_tick : Nat
  blockchain_tick : Nat
  blockchain_provider : Option Unit
  database_tick : Nat
deriving DecidableEq, Repr

/-- Modelled from the spec: the aggregate status produced by
`healthz_server::HealthStatus` (a file of this repository outside the
inspected source) — named boolean checks for liveness, blockchain
connectivity and database connectivity, extended with two ghost flags
recording whether the corresponding dependency probe
(`set_blockchain_connected` / `set_db_connected`) was actually invoked. -/
structure HealthStatus where
  alive : Bool
  blockchain_provider_ok : Bool
  blockchain_contacted : Bool
  database_ok : Bool
  database_contacted : Bool
deriving DecidableEq, Repr

/-- Model of `HealthCheck::is_alive` (health_check.rs, lines 91-99): either
blockchain tick is fresh within the 20-second liveness window. -/
def is_alive (now : Option Nat) (hc : HealthCheck) : Bool :=
  tick_is_recent now hc.blockchain_tick IS_ALIVE_TICK_FRESHNESS
    || tick_is_recent now hc.blockchain_timeout_tick IS_ALIVE_TICK_FRESHNESS

/-- Model of `HealthCheck::health_check` (health_check.rs, lines 59-89).
`probeBlockchain` and `probeDb` are the connectivity results the dependency
probes would report when contacted; a tick fresher than the 5-second
window short-circuits the probe and reports healthy directly. -/
def health_check (now : Option Nat) (hc : HealthCheck)
    (probeBlockchain probeDb : Bool) : HealthStatus :=
  let bc :=
    if tick_is_recent now hc.blockchain_tick CONNECTED_TICK_FRESHNESS then
      (true, false)
    else
      match hc.blockchain_provider with
      | some _ => (probeBlockchain, true)
      | none => (false, false)
  let db :=
    if tick_is_recent now hc.database_tick CONNECTED_TICK_FRESHNESS then
      (true, false)
    else (probeDb, true)
  { alive := is_alive now hc
    blockchain_provider_ok := bc.1
    blockchain_contacted := bc.2
    database_ok := db.1
    database_contacted := db.2 }

theorem U64_MOD_pos : 0 < U64_MOD := by
  decide

/-- Adding `x` and then subtracting `x` returns a 64-bit counter to its
original value: a rolled-back reservation has no net effect on the counter. -/
theorem fetchSub_fetchAdd (c x : Nat) (hc : c < U64_MOD) :
    fetchSub (fetchAdd c x) x = c := by
  unfold fetchSub fetchAdd
  rw [Nat.mod_add_mod]
  have h1 : c + x + (U64_MOD - x % U64_MOD)
      = c + U64_MOD * (x / U64_MOD) + U64_MOD := by
    have hdm := Nat.div_add_mod x U64_MOD
    have hlt := Nat.mod_lt x U64_MOD_pos
    omega
  rw [h1, Nat.add_mod_right, Nat.add_mul_mod_self_left, Nat.mod_eq_of_lt hc]

/-- In the non-wrapping range the 64-bit subtraction is the exact
difference. -/
theorem fetchSub_eq_sub (c x : Nat) (hc : c < U64_MOD) (hx : x ≤ c) :
    fetchSub c x = c - x := by
  unfold fetchSub
  have hxm : x % U64_MOD = x := Nat.mod_eq_of_lt (lt_of_le_of_lt hx hc)
  have h1 : c + (U64_MOD - x) = (c - x) + U64_MOD := by omega
  rw [hxm, h1, Nat.add_mod_right, Nat.mod_eq_of_lt (by omega)]

theorem reserveInv_step {valid : Nat → Bool} {amount : Nat}
    {s s' : ReserveState} (hinv : ReserveInv valid amount s)
    (hstep : ReserveStep valid amount s s') : ReserveInv valid amount s' := by
  cases hstep with
  | fetchAddStep c => exact rfl
  | checkOk old c h => exact ⟨hinv, h⟩
  | checkFail old c h => exact ⟨hinv, h⟩
  | fetchSubStep old c => exact trivial

theorem reserveInv_reaches {valid : Nat → Bool} {amount : Nat}
    {s s' : ReserveState} (hinv : ReserveInv valid amount s)
    (hr : ReserveReaches valid amount s s') : ReserveInv valid amount s' := by
  induction hr with
  | refl => exact hinv
  | tail _ hstep ih => exact reserveInv_step ih hstep

/-- C1: whenever `reserve_memory_on_gpu` returns, the final loop iteration
added `amount` to the device counter (so the counter holds `old + amount`,
wrapped) and `check_valid_cuda_malloc` accepted that very value; after a
rejected check the only possible continuation is the rollback `fetch_sub`
followed by the loop head, so the function never returns without retrying;
and an add-then-rollback iteration leaves the counter with no net change. -/
theorem reserve_memory_on_gpu_admission (valid : Nat → Bool) (amount : Nat) :
    (∀ c0 old c, ReserveReaches valid amount ⟨.atAdd, c0⟩ ⟨.returned old, c⟩ →
      c = fetchAdd old amount ∧ valid (fetchAdd old amount) = true)
    ∧ (∀ old c s, valid (fetchAdd old amount) = false →
        ReserveStep valid amount ⟨.atCheck old, c⟩ s →
        s = ⟨.atSub old, c⟩)
    ∧ (∀ old c s, ReserveStep valid amount ⟨.atSub old, c⟩ s →
        s = ⟨.atAdd, fetchSub c amount⟩)
    ∧ (∀ c, c < U64_MOD → fetchSub (fetchAdd c amount) amount = c) := by
  refine ⟨?_, ?_, ?_, ?_⟩
  · intro c0 old c hr
    have h0 : ReserveInv valid amount ⟨.atAdd, c0⟩ := trivial
    exact reserveInv_reaches h0 hr
  · intro old c s hvalid hstep
    cases hstep with
    | checkOk _ _ h => rw [hvalid] at h; exact absurd h (by simp)
    | checkFail _ _ h => rfl
  · intro old c s hstep
    cases hstep with
    | fetchSubStep => rfl
  · intro c hc
    exact fetchSub_fetchAdd c amount hc

/-- Witness for C1 on a concrete run: device check always valid,
`amount = 5`, counter starting at `0`; the loop returns after one
iteration with the counter holding `fetchAdd 0 5` and the check accepting
it, and a rolled-back iteration from counter `7` restores `7`. -/
theorem reserve_memory_on_gpu_admission_witness :
    (fetchAdd 0 5 = fetchAdd 0 5 ∧ (fun _ : Nat => true) (fetchAdd 0 5) = true)
    ∧ fetchSub (fetchAdd 7 5) 5 = 7 :=
  ⟨(reserve_memory_on_gpu_admission (fun _ => true) 5).1 0 0 (fetchAdd 0 5)
      (Relation.ReflTransGen.head (ReserveStep.fetchAddStep 0)
        (Relation.ReflTransGen.head
          (ReserveStep.checkOk 0 (fetchAdd 0 5) rfl)
          Relation.ReflTransGen.refl)),
    (reserve_memory_on_gpu_admission (fun _ => true) 5).2.2.2 7 (by decide)⟩

/-- C2: `release_memory_on_gpu` faults exactly when the counter read at
entry is strictly below `amount`, and on the fault path the counter is
unchanged; otherwise it returns normally with the counter decreased by
exactly `amount`. -/
theorem release_memory_on_gpu_spec (amount c : Nat) (hc : c < U64_MOD) :
    (release_memory_on_gpu amount c = .error c ↔ c < amount)
    ∧ (amount ≤ c → release_memory_on_gpu amount c = .ok (c - amount)) := by
  constructor
  · unfold release_memory_on_gpu
    split <;> simp_all
  · intro hle
    unfold release_memory_on_gpu
    rw [if_neg (by omega), fetchSub_eq_sub c amount hc hle]

/-- Witness for C2 at `amount = 3`, entry counter `10`: no fault, result
counter `7`; and at entry counter `2`: fault with the counter unchanged. -/
theorem release_memory_on_gpu_spec_witness :
    ((release_memory_on_gpu 3 10 = .error 10 ↔ (10 : Nat) < 3)
      ∧ ((3 : Nat) ≤ 10 → release_memory_on_gpu 3 10 = .ok 7))
    ∧ (release_memory_on_gpu 3 2 = .error 2 ↔ (2 : Nat) < 3) :=
  ⟨release_memory_on_gpu_spec 3 10 (by decide),
    (release_memory_on_gpu_spec 3 2 (by decide)).1⟩

theorem opFromInt_0 : opFromInt 0 = some SupportedFheOperations.FheAdd := by
  decide

theorem opFromInt_1 : opFromInt 1 = some SupportedFheOperations.FheSub := by
  decide

theorem opFromInt_2 : opFromInt 2 = some SupportedFheOperations.FheMul := by
  decide

theorem opFromInt_3 : opFromInt 3 = some SupportedFheOperations.FheDiv := by
  decide

theorem opFromInt_4 : opFromInt 4 = some SupportedFheOperations.FheRem := by
  decide

theorem opFromInt_5 : opFromInt 5 = some SupportedFheOperations.FheNeg := by
  decide

theorem opFromInt_6 : opFromInt 6 = some SupportedFheOperations.FheBitAnd := by
  decide

theorem opFromInt_7 : opFromInt 7 = some SupportedFheOperations.FheBitOr := by
  decide

theorem opFromInt_8 : opFromInt 8 = some SupportedFheOperations.FheBitXor := by
  decide

theorem opFromInt_10 : opFromInt 10 = some SupportedFheOperations.FheShl := by
  decide

theorem opFromInt_11 : opFromInt 11 = some SupportedFheOperations.FheShr := by
  decide

theorem opFromInt_12 : opFromInt 12 = some SupportedFheOperations.FheRotl := by
  decide

theorem opFromInt_13 : opFromInt 13 = some SupportedFheOperations.FheRotr := by
  decide

theorem opFromInt_14 : opFromInt 14 = some SupportedFheOperations.FheEq := by
  decide

theorem opFromInt_15 : opFromInt 15 = some SupportedFheOperations.FheNe := by
  decide

theorem opFromInt_16 : opFromInt 16 = some SupportedFheOperations.FheLt := by
  decide

theorem opFromInt_17 : opFromInt 17 = some SupportedFheOperations.FheLe := by
  decide

theorem opFromInt_18 : opFromInt 18 = some SupportedFheOperations.FheGt := by
  decide

theorem opFromInt_19 : opFromInt 19 = some SupportedFheOperations.FheGe := by
  decide

theorem opFromInt_20 : opFromInt 20 = some SupportedFheOperations.FheMin := by
  decide

theorem opFromInt_21 : opFromInt 21 = some SupportedFheOperations.FheMax := by
  decide

theorem opFromInt_22 : opFromInt 22 = some SupportedFheOperations.FheIfThenElse := by
  decide

theorem opFromInt_23 : opFromInt 23 = some SupportedFheOperations.FheCast := by
  decide

theorem opFromInt_24 :
    opFromInt 24 = some SupportedFheOperations.FheTrivialEncrypt := by
  decide

/-- C3: on a three-element operand list whose first element is not the
boolean variant, the `FheIfThenElse` arm (operation code 22) returns 0
without faulting and without inspecting operands 1 and 2; when the first
element is boolean, the call succeeds exactly when operands 1 and 2 are
device-resident ciphertexts of the same variant (boolean branches being
promoted to `FheUint2`), every other shape being fatal. -/
theorem if_then_else_size_spec (env : GpuEnv)
    (a b c : SupportedFheCiphertexts) :
    (isFheBool a = false → get_op_size_on_gpu env 22 [a, b, c] = some 0)
    ∧ (∀ flag : Nat,
        (get_op_size_on_gpu env 22 [.FheBool flag, b, c]).isSome
          = sameBranchKind b c) := by
  constructor
  · intro ha
    cases a <;> simp_all [get_op_size_on_gpu, opFromInt_22, isFheBool]
  · intro flag
    cases b <;> cases c <;>
      simp [get_op_size_on_gpu, opFromInt_22, if_then_else_size_on_gpu,
        sameBranchKind, asUintOrBytes, asUint, asByteStr, Option.orElse]

/-- Witness for C3: a scalar selector with two `FheUint8` branches costs 0;
a boolean selector with matching `FheUint8` branches succeeds, while
mismatched branches fault. -/
theorem if_then_else_size_spec_witness :
    (get_op_size_on_gpu defaultEnv 22 [.Scalar [7], .FheUint8 1, .FheUint8 2]
      = some 0)
    ∧ ((get_op_size_on_gpu defaultEnv 22
          [.FheBool 0, .FheUint8 1, .FheUint8 2]).isSome
        = sameBranchKind (.FheUint8 1) (.FheUint8 2))
    ∧ ((get_op_size_on_gpu defaultEnv 22
          [.FheBool 0, .FheUint8 1, .FheUint16 2]).isSome
        = sameBranchKind (.FheUint8 1) (.FheUint16 2)) :=
  ⟨(if_then_else_size_spec defaultEnv (.Scalar [7]) (.FheUint8 1)
      (.FheUint8 2)).1 (by decide),
    (if_then_else_size_spec defaultEnv (.Scalar [7]) (.FheUint8 1)
      (.FheUint8 2)).2 0,
    (if_then_else_size_spec defaultEnv (.Scalar [7]) (.FheUint8 1)
      (.FheUint16 2)).2 0⟩

/-- Counterexample to C4 as stated: the `FheCast` arm (operation code 23,
fixed arity 2 per spec §3) has no arity assertion; applied to a
three-element operand list it returns a byte count instead of faulting. -/
theorem cast_arity_counterexample :
    get_op_size_on_gpu defaultEnv 23 [.FheBool 0, .Scalar [2], .FheBool 9]
      = some 0 := by
  decide

/-- C4 (amended): every dispatch arm with a leading arity assertion faults
on any operand count different from its arity; the
`FheCast`/`FheTrivialEncrypt`, `FheRand` and `FheRandBounded` arms carry
no assertion — they fault only when the operand list is too short to index
(fewer than 2, 2 and 3 operands respectively) and silently ignore extra
trailing operands. -/
theorem get_op_size_on_gpu_arity (env : GpuEnv) (nInt : Int)
    (op : SupportedFheOperations) (ops : List SupportedFheCiphertexts)
    (hop : opFromInt nInt = some op) :
    (∀ k, opArityAssert op = some k → ops.length ≠ k →
      get_op_size_on_gpu env nInt ops = none)
    ∧ ((op = .FheCast ∨ op = .FheTrivialEncrypt ∨ op = .FheRand) →
        ops.length < 2 → get_op_size_on_gpu env nInt ops = none)
    ∧ (op = .FheRandBounded → ops.length < 3 →
        get_op_size_on_gpu env nInt ops = none)
    ∧ ((op = .FheCast ∨ op = .FheTrivialEncrypt) →
        ∀ x y rest, get_op_size_on_gpu env nInt (x :: y :: rest)
          = get_op_size_on_gpu env nInt [x, y])
    ∧ (op = .FheRand →
        ∀ x y rest, get_op_size_on_gpu env nInt (x :: y :: rest)
          = get_op_size_on_gpu env nInt [x, y])
    ∧ (op = .FheRandBounded →
        ∀ x y z rest, get_op_size_on_gpu env nInt (x :: y :: z :: rest)
          = get_op_size_on_gpu env nInt [x, y, z]) := by
  refine ⟨?_, ?_, ?_, ?_, ?_, ?_⟩
  · intro k hk hne
    rcases ops with _ | ⟨a, _ | ⟨b, _ | ⟨c, _ | ⟨d, rest⟩⟩⟩⟩ <;>
      cases op <;>
        simp_all [get_op_size_on_gpu, opArityAssert]
  · intro hcase hlen
    rcases ops with _ | ⟨a, _ | ⟨b, t⟩⟩
    · rcases hcase with h | h | h <;> subst h <;>
        simp [get_op_size_on_gpu, hop]
    · rcases hcase with h | h | h <;> subst h <;>
        simp [get_op_size_on_gpu, hop]
    · exact absurd hlen (by simp)
  · intro hcase hlen
    subst hcase
    rcases ops with _ | ⟨a, _ | ⟨b, _ | ⟨c, t⟩⟩⟩
    · simp [get_op_size_on_gpu, hop]
    · simp [get_op_size_on_gpu, hop]
    · simp [get_op_size_on_gpu, hop]
    · exact absurd hlen (by simp)
  · intro hcase x y rest
    rcases hcase with h | h <;> subst h <;>
      simp [get_op_size_on_gpu, hop]
  · intro hcase x y rest
    subst hcase
    simp [get_op_size_on_gpu, hop]
  · intro hcase x y z rest
    subst hcase
    simp [get_op_size_on_gpu, hop]

/-- Witness for C4 (amended): `FheAdd` (code 0) on one operand faults;
`FheCast` (code 23) on one operand faults; `FheRandBounded` (code 26) on
two operands faults; `FheCast` ignores a third operand. -/
theorem get_op_size_on_gpu_arity_witness :
    get_op_size_on_gpu defaultEnv 0 [.FheUint8 1] = none
    ∧ get_op_size_on_gpu defaultEnv 23 [.FheUint8 1] = none
    ∧ get_op_size_on_gpu defaultEnv 26 [.FheUint8 1, .FheUint8 2] = none
    ∧ get_op_size_on_gpu defaultEnv 23 [.FheUint8 1, .Scalar [2], .FheBool 3]
        = get_op_size_on_gpu defaultEnv 23 [.FheUint8 1, .Scalar [2]] :=
  ⟨(get_op_size_on_gpu_arity defaultEnv 0 .FheAdd [.FheUint8 1]
      (by decide)).1 2 (by decide) (by decide),
    (get_op_size_on_gpu_arity defaultEnv 23 .FheCast [.FheUint8 1]
      (by decide)).2.1 (Or.inl rfl) (by decide),
    (get_op_size_on_gpu_arity defaultEnv 26 .FheRandBounded
      [.FheUint8 1, .FheUint8 2] (by decide)).2.2.1 rfl (by decide),
    (get_op_size_on_gpu_arity defaultEnv 23 .FheCast
      [.FheUint8 1, .Scalar [2], .FheBool 3] (by decide)).2.2.2.1
      (Or.inl rfl) (.FheUint8 1) (.Scalar [2]) [.FheBool 3]⟩

theorem opFromInt_25 : opFromInt 25 = some SupportedFheOperations.FheRand := by
  decide

theorem randWidthKind_none (u : Int) (hu : ¬(0 ≤ u ∧ u ≤ 11)) :
    randWidthKind u = none := by
  have e0 : ¬u = 0 := by omega
  have e1 : ¬u = 1 := by omega
  have e2 : ¬u = 2 := by omega
  have e3 : ¬u = 3 := by omega
  have e4 : ¬u = 4 := by omega
  have e5 : ¬u = 5 := by omega
  have e6 : ¬u = 6 := by omega
  have e7 : ¬u = 7 := by omega
  have e8 : ¬u = 8 := by omega
  have e9 : ¬u = 9 := by omega
  have e10 : ¬u = 10 := by omega
  have e11 : ¬u = 11 := by omega
  simp [randWidthKind, e0, e1, e2, e3, e4, e5, e6, e7, e8, e9, e10, e11]

theorem opFromInt_26 :
    opFromInt 26 = some SupportedFheOperations.FheRandBounded := by
  decide

/-- C5: with a `Scalar` second operand, `FheRand` (code 25) looks the type
tag up in the fixed twelve-entry oblivious-random cost table — the tag,
read as a big-endian `u16` reinterpreted as `i16`, selects the output
width, tags outside `0..=11` being fatal, tag 3 selecting the 16-bit
entry, and the twelve tags selecting the widths 2, 4, 8, 16, 32, 64, 128,
160, 256, 512, 1024, 2048 in order — and `FheRandBounded` (code 26)
behaves the same with the tag in the third operand and the bounded-variant
cost table. -/
theorem rand_size_spec (env : GpuEnv) (x y : SupportedFheCiphertexts)
    (s : List Nat) :
    (get_op_size_on_gpu env 25 [x, .Scalar s]
      = (randWidthKind (u16_as_i16 (to_be_bits 16 s))).map env.randSize)
    ∧ (get_op_size_on_gpu env 26 [x, y, .Scalar s]
      = (randWidthKind (u16_as_i16 (to_be_bits 16 s))).map env.randBoundedSize)
    ∧ (∀ t : Int, (randWidthKind t).isSome ↔ 0 ≤ t ∧ t ≤ 11)
    ∧ randWidthKind 3 = some (.uint 16)
    ∧ ((List.range 12).map fun i => randWidthKind i)
        = supportedRandWidths.map fun w => some (CtKind.uint w) := by
  refine ⟨?_, ?_, ?_, by decide, by decide⟩
  · unfold get_op_size_on_gpu
    rw [opFromInt_25]
    rfl
  · unfold get_op_size_on_gpu
    rw [opFromInt_26]
    rfl
  · intro t
    constructor
    · intro h
      by_contra hc
      rw [randWidthKind_none t hc] at h
      exact absurd h (by simp)
    · intro hb
      obtain ⟨hl, hr⟩ := hb
      interval_cases t <;> decide

/-- C6 (amended): applied to two boolean ciphertext operands, the bitwise
operations (codes 6, 7, 8) and the comparisons Eq and Ne (codes 14, 15)
return a byte count, booleans being costed directly; but the order
comparisons Lt, Le, Gt, Ge (codes 16-19) and Min, Max (codes 20, 21) fault
on (boolean, boolean) — among the comparisons only Eq and Ne support it —
and every arithmetic (codes 0-4), negation (code 5) and shift/rotate
(codes 10-13) operation on boolean operands is fatal. -/
theorem bool_bool_op_size_spec (env : GpuEnv) (h1 h2 : Nat) :
    (get_op_size_on_gpu env 6 [.FheBool h1, .FheBool h2]
        = some (env.binSize .bitand .bool h1 (.ct .bool h2)))
    ∧ (get_op_size_on_gpu env 7 [.FheBool h1, .FheBool h2]
        = some (env.binSize .bitor .bool h1 (.ct .bool h2)))
    ∧ (get_op_size_on_gpu env 8 [.FheBool h1, .FheBool h2]
        = some (env.binSize .bitxor .bool h1 (.ct .bool h2)))
    ∧ (get_op_size_on_gpu env 14 [.FheBool h1, .FheBool h2]
        = some (env.binSize .eq .bool h1 (.ct .bool h2)))
    ∧ (get_op_size_on_gpu env 15 [.FheBool h1, .FheBool h2]
        = some (env.binSize .ne .bool h1 (.ct .bool h2)))
    ∧ (get_op_size_on_gpu env 16 [.FheBool h1, .FheBool h2] = none)
    ∧ (get_op_size_on_gpu env 17 [.FheBool h1, .FheBool h2] = none)
    ∧ (get_op_size_on_gpu env 18 [.FheBool h1, .FheBool h2] = none)
    ∧ (get_op_size_on_gpu env 19 [.FheBool h1, .FheBool h2] = none)
    ∧ (get_op_size_on_gpu env 20 [.FheBool h1, .FheBool h2] = none)
    ∧ (get_op_size_on_gpu env 21 [.FheBool h1, .FheBool h2] = none)
    ∧ (get_op_size_on_gpu env 0 [.FheBool h1, .FheBool h2] = none)
    ∧ (get_op_size_on_gpu env 1 [.FheBool h1, .FheBool h2] = none)
    ∧ (get_op_size_on_gpu env 2 [.FheBool h1, .FheBool h2] = none)
    ∧ (get_op_size_on_gpu env 3 [.FheBool h1, .FheBool h2] = none)
    ∧ (get_op_size_on_gpu env 4 [.FheBool h1, .FheBool h2] = none)
    ∧ (get_op_size_on_gpu env 5 [.FheBool h1] = none)
    ∧ (get_op_size_on_gpu env 10 [.FheBool h1, .FheBool h2] = none)
    ∧ (get_op_size_on_gpu env 11 [.FheBool h1, .FheBool h2] = none)
    ∧ (get_op_size_on_gpu env 12 [.FheBool h1, .FheBool h2] = none)
    ∧ (get_op_size_on_gpu env 13 [.FheBool h1, .FheBool h2] = none) := by
  unfold get_op_size_on_gpu
  refine ⟨?_, ?_, ?_, ?_, ?_, ?_, ?_, ?_, ?_, ?_, ?_, ?_, ?_, ?_, ?_, ?_,
    ?_, ?_, ?_, ?_, ?_⟩
  · rw [opFromInt_6]
    rfl
  · rw [opFromInt_7]
    rfl
  · rw [opFromInt_8]
    rfl
  · rw [opFromInt_14]
    rfl
  · rw [opFromInt_15]
    rfl
  · rw [opFromInt_16]
    rfl
  · rw [opFromInt_17]
    rfl
  · rw [opFromInt_18]
    rfl
  · rw [opFromInt_19]
    rfl
  · rw [opFromInt_20]
    rfl
  · rw [opFromInt_21]
    rfl
  · rw [opFromInt_0]
    rfl
  · rw [opFromInt_1]
    rfl
  · rw [opFromInt_2]
    rfl
  · rw [opFromInt_3]
    rfl
  · rw [opFromInt_4]
    rfl
  · rw [opFromInt_5]
    rfl
  · rw [opFromInt_10]
    rfl
  · rw [opFromInt_11]
    rfl
  · rw [opFromInt_12]
    rfl
  · rw [opFromInt_13]
    rfl

/-- Counterexample to C6 as stated: the comparison `FheLt` (code 16)
applied to two boolean ciphertext operands faults (the `FheLt` arm has no
(boolean, boolean) case) instead of returning a byte count. -/
theorem bool_bool_lt_counterexample :
    get_op_size_on_gpu defaultEnv 16 [.FheBool 0, .FheBool 1] = none := by
  decide

/-- C7: for every destination tag carried in a `Scalar` second operand,
the `FheCast` (code 23) and `FheTrivialEncrypt` (code 24) estimates are
equal to each other, independent of the first operand, and equal to
`get_supported_ct_size_on_gpu` at that tag — the device size of one
trivially-encrypted unit of the destination type. -/
theorem cast_trivial_encrypt_size_spec (env : GpuEnv)
    (a a2 : SupportedFheCiphertexts) (s : List Nat) :
    (get_op_size_on_gpu env 23 [a, .Scalar s]
      = some (get_supported_ct_size_on_gpu env (u16_as_i16 (to_be_bits 16 s))))
    ∧ (get_op_size_on_gpu env 24 [a, .Scalar s]
      = some (get_supported_ct_size_on_gpu env (u16_as_i16 (to_be_bits 16 s))))
    ∧ (get_op_size_on_gpu env 23 [a, .Scalar s]
      = get_op_size_on_gpu env 24 [a2, .Scalar s]) := by
  unfold get_op_size_on_gpu
  refine ⟨?_, ?_, ?_⟩
  · rw [opFromInt_23]
    rfl
  · rw [opFromInt_24]
    rfl
  · rw [opFromInt_23, opFromInt_24]

/-- In the non-wrapping range, `Tick::is_recent(seconds)` holds exactly
when the tick is strictly less than `seconds` older than the current
time. -/
theorem tick_is_recent_iff (n tick s : Nat) (hn : n < U64_MOD)
    (ht : tick ≤ n) :
    tick_is_recent (some n) tick s = true ↔ n - tick < s := by
  have hdef : tick_is_recent (some n) tick s = decide (fetchSub n tick < s) :=
    rfl
  rw [hdef, fetchSub_eq_sub n tick hn ht]
  simp

/-- C8: with the system clock at or after the Unix epoch (and tick values
no later than the current time), `is_alive` holds exactly when one of the
two blockchain ticks is strictly less than 20 seconds old, and
`health_check` reports the blockchain (resp. database) check healthy
without contacting the dependency — whatever the probes would answer —
whenever the corresponding tick is strictly less than 5 seconds old. -/
theorem health_check_freshness (now : Nat) (hc : HealthCheck)
    (probeB probeDb : Bool) (hn : now < U64_MOD)
    (h1 : hc.blockchain_tick ≤ now) (h2 : hc.blockchain_timeout_tick ≤ now)
    (h3 : hc.database_tick ≤ now) :
    (is_alive (some now) hc = true ↔
      (now - hc.blockchain_tick < IS_ALIVE_TICK_FRESHNESS
        ∨ now - hc.blockchain_timeout_tick < IS_ALIVE_TICK_FRESHNESS))
    ∧ (now - hc.blockchain_tick < CONNECTED_TICK_FRESHNESS →
        (health_check (some now) hc probeB probeDb).blockchain_provider_ok
            = true
          ∧ (health_check (some now) hc probeB probeDb).blockchain_contacted
            = false)
    ∧ (now - hc.database_tick < CONNECTED_TICK_FRESHNESS →
        (health_check (some now) hc probeB probeDb).database_ok = true
          ∧ (health_check (some now) hc probeB probeDb).database_contacted
            = false) := by
  refine ⟨?_, ?_, ?_⟩
  · unfold is_alive
    rw [Bool.or_eq_true, tick_is_recent_iff now hc.blockchain_tick
      IS_ALIVE_TICK_FRESHNESS hn h1, tick_is_recent_iff now
      hc.blockchain_timeout_tick IS_ALIVE_TICK_FRESHNESS hn h2]
  · intro h
    have hrec : tick_is_recent (some now) hc.blockchain_tick
        CONNECTED_TICK_FRESHNESS = true :=
      (tick_is_recent_iff now hc.blockchain_tick
        CONNECTED_TICK_FRESHNESS hn h1).mpr h
    constructor <;> simp [health_check, hrec]
  · intro h
    have hrec : tick_is_recent (some now) hc.database_tick
        CONNECTED_TICK_FRESHNESS = true :=
      (tick_is_recent_iff now hc.database_tick
        CONNECTED_TICK_FRESHNESS hn h3).mpr h
    constructor <;> simp [health_check, hrec]

/-- Witness for C8 at time 100 with ticks 97 (blockchain), 83 (blockchain
timeout) and 98 (database), a present provider, and probes answering
`true`/`false`. -/
theorem health_check_freshness_witness :
    ((is_alive (some 100) ⟨83, 97, some (), 98⟩ = true ↔
        ((100 : Nat) - 97 < IS_ALIVE_TICK_FRESHNESS
          ∨ (100 : Nat) - 83 < IS_ALIVE_TICK_FRESHNESS))
      ∧ ((100 : Nat) - 97 < CONNECTED_TICK_FRESHNESS →
          (health_check (some 100) ⟨83, 97, some (), 98⟩ true false).blockchain_provider_ok
              = true
            ∧ (health_check (some 100) ⟨83, 97, some (), 98⟩ true false).blockchain_contacted
              = false)
      ∧ ((100 : Nat) - 98 < CONNECTED_TICK_FRESHNESS →
          (health_check (some 100) ⟨83, 97, some (), 98⟩ true false).database_ok
              = true
            ∧ (health_check (some 100) ⟨83, 97, some (), 98⟩ true false).database_contacted
              = false)) :=
  health_check_freshness 100 ⟨83, 97, some (), 98⟩ true false (by decide)
    (by decide) (by decide) (by decide)

/-- C9: the `FheRand` arm (code 25) returns 0 without faulting when its
second operand exists but is not a `Scalar`, and likewise the
`FheRandBounded` arm (code 26) when its third operand exists but is not a
`Scalar`: the fatal path applies only to out-of-range tags, not to a
wrongly-shaped tag operand. -/
theorem rand_nonscalar_size_spec (env : GpuEnv)
    (ops : List SupportedFheCiphertexts) (x : SupportedFheCiphertexts) :
    (ops.get? 1 = some x → isScalar x = false →
      get_op_size_on_gpu env 25 ops = some 0)
    ∧ (ops.get? 2 = some x → isScalar x = false →
      get_op_size_on_gpu env 26 ops = some 0) := by
  constructor
  · intro h hx
    unfold get_op_size_on_gpu
    rw [opFromInt_25, h]
    cases x <;> simp_all [isScalar]
  · intro h hx
    unfold get_op_size_on_gpu
    rw [opFromInt_26, h]
    cases x <;> simp_all [isScalar]

/-- Witness for C9: `FheRand` with an `FheUint8` in place of the scalar
tag, and `FheRandBounded` with an `FheBool` in place of the scalar tag,
both cost 0. -/
theorem rand_nonscalar_size_spec_witness :
    get_op_size_on_gpu defaultEnv 25 [.FheBool 0, .FheUint8 1] = some 0
    ∧ get_op_size_on_gpu defaultEnv 26 [.FheBool 0, .FheUint8 1, .FheBool 2]
        = some 0 :=
  ⟨(rand_nonscalar_size_spec defaultEnv [.FheBool 0, .FheUint8 1]
      (.FheUint8 1)).1 rfl rfl,
    (rand_nonscalar_size_spec defaultEnv
      [.FheBool 0, .FheUint8 1, .FheBool 2] (.FheBool 2)).2 rfl rfl⟩

/-- C10: an `i16` operation code that does not convert to a supported
operation makes `get_op_size_on_gpu` fault for every operand list
(the `expect` on the conversion), and so does an operation of the
enumeration outside the handled cost cases (the trailing catch-all
`_ => panic!()`); no byte count is ever returned for such codes. -/
theorem invalid_op_size_spec (env : GpuEnv) (n : Int)
    (ops : List SupportedFheCiphertexts) :
    (opFromInt n = none → get_op_size_on_gpu env n ops = none)
    ∧ (opFromInt n = some .FheOther → get_op_size_on_gpu env n ops = none) := by
  constructor
  · intro h
    unfold get_op_size_on_gpu
    rw [h]
  · intro h
    unfold get_op_size_on_gpu
    rw [h]

/-- Witness for C10: code `-1` does not convert and faults; code 27 (an
enumeration variant outside the cost dispatch) faults. -/
theorem invalid_op_size_spec_witness :
    get_op_size_on_gpu defaultEnv (-1) [.FheBool 0] = none
    ∧ get_op_size_on_gpu defaultEnv 27 [.FheBool 0] = none :=
  ⟨(invalid_op_size_spec defaultEnv (-1) [.FheBool 0]).1 (by decide),
    (invalid_op_size_spec defaultEnv 27 [.FheBool 0]).2 (by decide)⟩

end FhevmGpu
